import Mathlib

/-!
Verification of the barq HTTP server (grandimam/barq) against its
specification.  Each Python source function is shallowly embedded as an
executable Lean definition; theorems below establish or refute the spec's
claims about routing, dependency resolution, fault handling, streaming,
connection keep-alive, socket reading, request-line parsing, and the
parallel task helper.
-/

namespace Barq

/-! ### Python dict model
Python dicts preserve insertion order; assignment replaces a present key in
place and otherwise appends; `del` removes the key. -/

/-- `d.get(k)` / `d[k]` lookup on an insertion-ordered dict. -/
def dget {K : Type} [DecidableEq K] {A : Type} (d : List (K × A)) (k : K) : Option A :=
  match d with
  | [] => none
  | (k', v) :: rest => if k' = k then some v else dget rest k

/-- `d[k] = v` on an insertion-ordered dict. -/
def dset {K : Type} [DecidableEq K] {A : Type} (d : List (K × A)) (k : K) (v : A) :
    List (K × A) :=
  match d with
  | [] => [(k, v)]
  | (k', v') :: rest => if k' = k then (k, v) :: rest else (k', v') :: dset rest k v

/-- `del d[k]` on an insertion-ordered dict (the KeyError on an absent key is
not modelled; no claim exercises it). -/
def ddel {K : Type} [DecidableEq K] {A : Type} (d : List (K × A)) (k : K) : List (K × A) :=
  match d with
  | [] => []
  | (k', v') :: rest => if k' = k then rest else (k', v') :: ddel rest k

/-! ### router.py — RadixRouter -/

/-- `RouteData` from router.py (handler and meta are opaque callables/objects;
they are identified by numbers). -/
structure RouteData where
  handler : Nat
  meta : Nat
  param_names : List String
deriving DecidableEq, Repr

/-- `RadixNode` from router.py.  An inductive because the children nest. -/
inductive RadixNode where
  | mk (segment : String) (is_param : Bool) (param_name : String)
       (children : List (String × RadixNode))
       (param_child : Option RadixNode)
       (handlers : List (String × RouteData))
deriving Repr

def RadixNode.segment : RadixNode → String
  | .mk s _ _ _ _ _ => s

def RadixNode.paramName : RadixNode → String
  | .mk _ _ p _ _ _ => p

def RadixNode.children : RadixNode → List (String × RadixNode)
  | .mk _ _ _ c _ _ => c

def RadixNode.paramChild : RadixNode → Option RadixNode
  | .mk _ _ _ _ p _ => p

def RadixNode.handlers : RadixNode → List (String × RouteData)
  | .mk _ _ _ _ _ h => h

/-- Python `str.split(sep)` (single-character separator, empty pieces kept),
on the character list. -/
def pySplitAux (sep : Char) : List Char → List Char → List (List Char)
  | [], acc => [acc.reverse]
  | c :: rest, acc =>
    if c = sep then acc.reverse :: pySplitAux sep rest []
    else pySplitAux sep rest (c :: acc)

/-- Python `s.split(sep)` for a one-character separator. -/
def pySplit (sep : Char) (s : String) : List String :=
  (pySplitAux sep s.data []).map String.mk

/-- Python `s.lower()` (ASCII model). -/
def pyLower (s : String) : String := String.mk (s.data.map Char.toLower)

/-- Python `s.upper()` (ASCII model). -/
def pyUpper (s : String) : String := String.mk (s.data.map Char.toUpper)

/-- `RadixRouter._split_path`. -/
def splitPath (path : String) : List String :=
  if path = "/" then [] else (pySplit '/' path).filter (fun s => s ≠ "")

/-- Word characters of the regex `\w` (ASCII model), used by `PARAM_RE`. -/
def isWordChar (c : Char) : Bool :=
  c.isAlpha || c.isDigit || c = '_'

/-- `PARAM_RE.fullmatch(segment)` for `PARAM_RE = \{(\w+)\}`: the whole
segment is an opening brace, one or more word characters, a closing brace;
returns the captured name. -/
def paramSegName (seg : String) : Option String :=
  match seg.data with
  | c :: rest =>
    if c = Char.ofNat 123 then
      let body := rest.takeWhile isWordChar
      if body.isEmpty then none
      else match rest.drop body.length with
        | [d] => if d = Char.ofNat 125 then some (String.mk body) else none
        | _ => none
    else none
  | [] => none

/-- The loop body of `RadixRouter.add`, walking the remaining pattern
segments and rebuilding the tree; `pnames` accumulates the parameter names
seen so far, stored in the terminal node's `RouteData`. -/
def addRec (node : RadixNode) (segs : List String) (pnames : List String)
    (method : String) (handler meta : Nat) : RadixNode :=
  match segs with
  | [] =>
    .mk node.segment false node.paramName node.children node.paramChild
      (dset node.handlers method ⟨handler, meta, pnames⟩)
  | seg :: rest =>
    match paramSegName seg with
    | some pname =>
      let pc := match node.paramChild with
        | none => RadixNode.mk "*" true pname [] none []
        | some pc => pc
      .mk node.segment false node.paramName node.children
        (some (addRec pc rest (pnames ++ [pname]) method handler meta))
        node.handlers
    | none =>
      let child := (dget node.children seg).getD (RadixNode.mk seg false "" [] none [])
      .mk node.segment false node.paramName
        (dset node.children seg (addRec child rest pnames method handler meta))
        node.paramChild node.handlers

structure RadixRouter where
  root : RadixNode

/-- `RadixRouter()`. -/
def RadixRouter.empty : RadixRouter := ⟨RadixNode.mk "" false "" [] none []⟩

/-- `RadixRouter.add`. -/
def RadixRouter.add (r : RadixRouter) (path method : String) (handler meta : Nat) :
    RadixRouter :=
  ⟨addRec r.root (splitPath path) [] method handler meta⟩

/-- `RadixRouter._match_recursive`.  The Python version mutates the shared
`params` dict and returns an optional `RouteData`; here the (possibly
modified) dict is threaded and returned alongside the result, so the
mutations seen by the caller on failure are preserved. -/
def matchRec (node : RadixNode) (segs : List String) (method : String)
    (params : List (String × String)) :
    Option RouteData × List (String × String) :=
  match segs with
  | [] => (dget node.handlers method, params)
  | seg :: rest =>
    let litRes : Option RouteData × List (String × String) :=
      match dget node.children seg with
      | some child => matchRec child rest method params
      | none => (none, params)
    match litRes with
    | (some rd, p) => (some rd, p)
    | (none, p1) =>
      match node.paramChild with
      | some pc =>
        match matchRec pc rest method (dset p1 pc.paramName seg) with
        | (some rd, p3) => (some rd, p3)
        | (none, p3) => (none, ddel p3 pc.paramName)
      | none => (none, p1)

/-- `RadixRouter.match`. -/
def RadixRouter.match (r : RadixRouter) (path method : String) :
    Option (RouteData × List (String × String)) :=
  match matchRec r.root (splitPath path) method [] with
  | (some rd, params) => some (rd, params)
  | (none, _) => none

/-- Descend from `node` through literal children only, consuming `segs`. -/
def literalLookup (node : RadixNode) (segs : List String) : Option RadixNode :=
  match segs with
  | [] => some node
  | seg :: rest =>
    match dget node.children seg with
    | some child => literalLookup child rest
    | none => none

/-! ### http.py — request line and server.py — SocketReader -/

/-- Split a character list at the first occurrence of `sep`: the characters
before it and the characters after it. -/
def findSplit (sep : Char) : List Char → Option (List Char × List Char)
  | [] => none
  | c :: rest =>
    if c = sep then some ([], rest)
    else (findSplit sep rest).map (fun pq => (c :: pq.1, pq.2))

/-- Python `s.split(sep, maxsplit)` for a one-character separator. -/
def pySplitMax (sep : Char) (cs : List Char) : Nat → List (List Char)
  | 0 => [cs]
  | k + 1 =>
    match findSplit sep cs with
    | none => [cs]
    | some (pre, post) => pre :: pySplitMax sep post k

/-- `HTTPParser._parse_request_line`: `line.split(" ", 2)`, failing unless
that yields three parts; the first part is uppercased. -/
def parseRequestLine (line : String) : Except String (String × String × String) :=
  match (pySplitMax ' ' line.data 2).map String.mk with
  | [a, b, c] => .ok (pyUpper a, b, c)
  | _ => .error ("Bad request line: " ++ line)

/-- `HTTPParser._split_target`: split the target on its first `?`. -/
def splitTarget (target : String) : String × String :=
  match findSplit '?' target.data with
  | some pq => (String.mk pq.1, String.mk pq.2)
  | none => (target, "")

/-- Modelled from the spec's words, for comparison with the source-derived
`parseRequestLine` (the source is `line.split(" ", 2)`): the
whitespace-delimited fields of a line, as Python's argumentless
`line.split()` would produce them. -/
def specWhitespaceFields (line : String) : List String :=
  ((pySplitAux ' ' line.data []).map String.mk).filter (fun s => s ≠ "")

/-! ### server.py — SocketReader.read and http.py — HTTPParser._read_body -/

/-- `SocketReader.read(n)`: while the buffer holds fewer than `n` bytes,
append the next `recv` chunk; an empty chunk — or the chunk schedule running
out, which stands for the peer disconnecting — raises `ConnectionError`
(modelled as `none`).  Returns the `n` bytes taken together with the
remaining buffer and the unconsumed chunks. -/
def sockRead (buffer : List Nat) (chunks : List (List Nat)) (n : Nat) :
    Option (List Nat × List Nat × List (List Nat)) :=
  if n ≤ buffer.length then some (buffer.take n, buffer.drop n, chunks)
  else match chunks with
    | [] => none
    | c :: rest => if c = [] then none else sockRead (buffer ++ c) rest n

/-- Numeric value of a digit string, most significant first. -/
def digitsVal (ds : List Char) : Nat :=
  List.foldl (fun acc c => acc * 10 + (c.toNat - 48)) 0 ds

/-- Python `int(s)`: strip whitespace, optional sign, then decimal digits
(digit-separating underscores are not modelled). -/
def pyIntParse (s : String) : Option Int :=
  let cs := ((s.data.dropWhile Char.isWhitespace).reverse.dropWhile Char.isWhitespace).reverse
  match cs with
  | '+' :: ds =>
    if ds ≠ [] ∧ ds.all Char.isDigit then some (Int.ofNat (digitsVal ds)) else none
  | '-' :: ds =>
    if ds ≠ [] ∧ ds.all Char.isDigit then some (-(Int.ofNat (digitsVal ds))) else none
  | ds =>
    if ds ≠ [] ∧ ds.all Char.isDigit then some (Int.ofNat (digitsVal ds)) else none

/-- `HTTPParser._read_body`, with the SocketReader state explicit: absent or
empty `content-length` gives an empty body; otherwise `int(...)` is parsed
(failure raises, modelled as `none`) and exactly that many bytes are read.
A negative parsed length is not modelled (no claim exercises it). -/
def readBody (headers : List (String × String)) (buffer : List Nat)
    (chunks : List (List Nat)) : Option (List Nat × List Nat × List (List Nat)) :=
  match dget headers "content-length" with
  | none => some ([], buffer, chunks)
  | some l =>
    if l = "" then some ([], buffer, chunks)
    else match pyIntParse l with
      | some n => sockRead buffer chunks n.toNat
      | none => none

/-! ### types.py — JSON values, Response, StreamingResponse -/

/-- JSON-encodable Python values; floats carried as `mantissa * 10^-scale`. -/
inductive Json where
  | null
  | bool (b : Bool)
  | num (n : Int)
  | fnum (mantissa : Int) (scale : Nat)
  | str (s : String)
  | arr (xs : List Json)
  | obj (fields : List (String × Json))

/-- Decimal rendering of `mantissa * 10^-scale`, as Python prints floats. -/
def floatRepr (m : Int) (scale : Nat) : String :=
  if scale = 0 then toString m ++ ".0"
  else
    let a := m.natAbs
    let frac := toString (a % 10 ^ scale)
    (if m < 0 then "-" else "") ++ toString (a / 10 ^ scale) ++ "." ++
      String.mk (List.replicate (scale - frac.length) '0') ++ frac

mutual

/-- `json.dumps` with its default separators (string escaping not modelled;
no claim feeds strings needing escapes). -/
def Json.dumps : Json → String
  | .null => "null"
  | .bool true => "true"
  | .bool false => "false"
  | .num n => toString n
  | .fnum m s => floatRepr m s
  | .str s => "\"" ++ s ++ "\""
  | .arr xs => "[" ++ String.intercalate ", " (Json.dumpsList xs) ++ "]"
  | .obj fs => "\x7b" ++ String.intercalate ", " (Json.dumpsFields fs) ++ "\x7d"

def Json.dumpsList : List Json → List String
  | [] => []
  | x :: xs => Json.dumps x :: Json.dumpsList xs

def Json.dumpsFields : List (String × Json) → List String
  | [] => []
  | (k, v) :: fs => ("\"" ++ k ++ "\": " ++ Json.dumps v) :: Json.dumpsFields fs
end

/-- Python `str(x)` for scalar JSON values (used by the SSE `data:` line). -/
def pyStr : Json → String
  | .null => "None"
  | .bool true => "True"
  | .bool false => "False"
  | .num n => toString n
  | .fnum m s => floatRepr m s
  | .str s => s
  | .arr xs => (Json.arr xs).dumps
  | .obj fs => (Json.obj fs).dumps

/-- `Response` (bodies as character strings; the models here are ASCII, so a
string's length is its byte count). -/
structure Resp where
  status_code : Nat
  headers : List (String × String)
  body : String
deriving DecidableEq

/-- `Response.json` (the pydantic branches collapse to the same encoding). -/
def Resp.json (data : Json) (status : Nat) : Resp :=
  let body := data.dumps
  ⟨status,
   [("content-type", "application/json"), ("content-length", toString body.length)],
   body⟩

/-- `Response.text`. -/
def Resp.text (content : String) (status : Nat) : Resp :=
  ⟨status, [("content-type", "text/plain"), ("content-length", toString content.length)],
   content⟩

/-- `Response.empty`. -/
def Resp.empty (status : Nat) : Resp :=
  ⟨status, [("content-length", "0")], ""⟩

/-- `StreamingResponse` (the chunk producer as the list of chunks it yields). -/
structure StreamingResp where
  iterator : List String
  status_code : Nat
  headers : List (String × String)
  media_type : String
deriving DecidableEq

/-- `StreamingResponse.__init__` plus `__post_init__`: default the
content-type from the media type, then always set
`transfer-encoding: chunked`. -/
def mkStreamingResponse (iterator : List String) (status : Nat)
    (headers : List (String × String)) (media_type : String) : StreamingResp :=
  let h1 := if (dget headers "content-type").isSome then headers
            else dset headers "content-type" media_type
  ⟨iterator, status, dset h1 "transfer-encoding" "chunked", media_type⟩

/-- `StreamingResponse.json_stream` (the pydantic branch collapses into the
JSON encoding). -/
def StreamingResp.json_stream (items : List Json) (status : Nat) : StreamingResp :=
  mkStreamingResponse (items.map (fun j => j.dumps ++ "\n")) status []
    "application/x-ndjson"

/-- `StreamingResponse.text_stream`. -/
def StreamingResp.text_stream (items : List String) (status : Nat) : StreamingResp :=
  mkStreamingResponse items status [] "text/plain; charset=utf-8"

/-- One event dict passed to `StreamingResponse.sse`: optional `id` and
`event` entries and the `data` entry (`.str ""` when absent, matching the
`.get("data", "")` default). -/
structure SseEvent where
  id : Option String
  event : Option String
  data : Json

/-- The SSE frame built for one event by `StreamingResponse.sse.generate`. -/
def sseFrame (ev : SseEvent) : String :=
  let idLines := match ev.id with
    | some i => if i ≠ "" then ["id: " ++ i] else []
    | none => []
  let evLines := match ev.event with
    | some e => if e ≠ "" then ["event: " ++ e] else []
    | none => []
  let dataLine := match ev.data with
    | .obj fs => "data: " ++ (Json.obj fs).dumps
    | .arr xs => "data: " ++ (Json.arr xs).dumps
    | j => "data: " ++ pyStr j
  String.intercalate "\n" (idLines ++ evLines ++ [dataLine] ++ [""]) ++ "\n"

/-- `StreamingResponse.sse`. -/
def StreamingResp.sse (events : List SseEvent) (status : Nat) : StreamingResp :=
  mkStreamingResponse (events.map sseFrame) status
    [("cache-control", "no-cache"), ("connection", "keep-alive")] "text/event-stream"

/-! ### server.py / http.py — the write path -/

/-- `STATUS_PHRASES` from http.py. -/
def STATUS_PHRASES : List (Nat × String) :=
  [(200, "OK"), (201, "Created"), (204, "No Content"), (400, "Bad Request"),
   (401, "Unauthorized"), (403, "Forbidden"), (404, "Not Found"),
   (405, "Method Not Allowed"), (422, "Unprocessable Entity"),
   (500, "Internal Server Error")]

/-- `http.write_response`: status line, header lines, blank line, body, sent
in one call. -/
def writeResponseBytes (status : Nat) (headers : List (String × String))
    (body : String) : String :=
  let phrase := (dget STATUS_PHRASES status).getD "Unknown"
  let lines := ("HTTP/1.1 " ++ toString status ++ " " ++ phrase) ::
    (headers.map (fun kv => kv.1 ++ ": " ++ kv.2) ++ ["", ""])
  String.intercalate "\r\n" lines ++ body

/-- A dispatch result: a plain `Response` or a `StreamingResponse`. -/
inductive Resp2 where
  | plain (r : Resp)
  | stream (s : StreamingResp)
deriving DecidableEq

/-- The single response write in `Server._handle` (server.py line 139): it
reads `response.status_code`, `response.headers` and `response.body`.  A
`StreamingResponse` is a slots dataclass with no `body` field, so that
attribute access raises `AttributeError` (modelled as `.error`): the server
has no code path that writes a stream's chunks. -/
def serverWrite : Resp2 → Except String String
  | .plain r => .ok (writeResponseBytes r.status_code r.headers r.body)
  | .stream _ => .error "AttributeError"

/-! ### types.py — stream_parallel -/

/-- One record yielded by `stream_parallel`. -/
structure TaskRecord where
  index : Nat
  result : Option Json
  error : Option String

/-- `num_workers = workers or min(len(tasks), os.cpu_count() or 4)` from
`stream_parallel`, with `cpu` standing for `os.cpu_count() or 4`; both
`None` and `0` are falsy, sending the `or` to its right operand. -/
def numWorkers (tasks : List (Except String Json)) (workers : Option Nat)
    (cpu : Nat) : Nat :=
  match workers with
  | some w => if w = 0 then min tasks.length cpu else w
  | none => min tasks.length cpu

/-- The yield loop of `stream_parallel`: one `{index, result, error}` record
per completed future, in completion order. -/
def streamRecords (tasks : List (Except String Json)) (order : List Nat) :
    List TaskRecord :=
  order.filterMap (fun i =>
    (tasks[i]?).map (fun t =>
      match t with
      | .ok v => ⟨i, some v, none⟩
      | .error e => ⟨i, none, some e⟩))

/-- `stream_parallel`: each task is summarized by its outcome when invoked
(`.ok` return value or the raised exception's string); `as_completed` hands
back the futures in an arbitrary completion order, given here as the list
`order` of original submission indices.  Constructing
`ThreadPoolExecutor(max_workers=0)` raises `ValueError`, so when the
computed worker count is zero — with the default `workers` argument, exactly
when `tasks` is empty — the helper raises instead of yielding. -/
def streamParallel (tasks : List (Except String Json)) (workers : Option Nat)
    (cpu : Nat) (order : List Nat) : Except String (List TaskRecord) :=
  if numWorkers tasks workers cpu = 0 then
    .error "ValueError: max_workers must be greater than 0"
  else .ok (streamRecords tasks order)

/-! ### app.py — type hints, coercion, dependency resolution -/

/-- The faults that can cross the dispatcher: `HTTPException(status, detail)`,
pydantic's `ValidationError` (carrying `e.errors()`), or any other
exception. -/
inductive Exn where
  | httpException (status : Nat) (detail : String)
  | validationError (errors : List Json)
  | exc (msg : String)

/-- The type hints `Barq._resolve` distinguishes: `Request`, `Depends` (also
via `Annotated`), `int`, `float`, `bool`, `str`, a pydantic model, or no
annotation. -/
inductive Hint where
  | hRequest
  | hDepends (fn : Nat)
  | hInt
  | hFloat
  | hBool
  | hStr
  | hModel
  | hNone
deriving DecidableEq

/-- Python runtime values a handler or dependency can produce or receive. -/
inductive Value where
  | vStr (s : String)
  | vInt (n : Int)
  | vFloat (mantissa : Int) (scale : Nat)
  | vBool (b : Bool)
  | vNone
  | vRequest
  | vJson (j : Json)
  | vResp (r : Resp)
  | vStream (s : StreamingResp)
  | vGen (items : List Json)

/-- Python `float(s)`: strip whitespace, optional sign, digits with an
optional fractional part (exponents, `inf` and `nan` are not modelled);
the result is `(mantissa, scale)` for `mantissa * 10^-scale`. -/
def pyFloatParse (s : String) : Option (Int × Nat) :=
  let cs := ((s.data.dropWhile Char.isWhitespace).reverse.dropWhile
    Char.isWhitespace).reverse
  let parseUnsigned : List Char → Option (Nat × Nat) := fun ds =>
    let intPart := ds.takeWhile Char.isDigit
    match ds.drop intPart.length with
    | [] => if intPart.isEmpty then none else some (digitsVal intPart, 0)
    | '.' :: frac =>
      if frac.all Char.isDigit ∧ ¬(intPart.isEmpty ∧ frac.isEmpty) then
        some (digitsVal (intPart ++ frac), frac.length)
      else none
    | _ => none
  match cs with
  | '+' :: ds => (parseUnsigned ds).map (fun ms => (Int.ofNat ms.1, ms.2))
  | '-' :: ds => (parseUnsigned ds).map (fun ms => (-(Int.ofNat ms.1), ms.2))
  | ds => (parseUnsigned ds).map (fun ms => (Int.ofNat ms.1, ms.2))

/-- `Barq._coerce`: `int` and `float` hints parse the string (raising
`ValueError` on failure), `bool` tests `val.lower() in ("true", "1")`, and
every other hint returns the string unchanged. -/
def coerce (val : String) (hint : Hint) : Except Exn Value :=
  match hint with
  | .hInt =>
    match pyIntParse val with
    | some n => .ok (.vInt n)
    | none => .error (.exc "ValueError")
  | .hFloat =>
    match pyFloatParse val with
    | some ms => .ok (.vFloat ms.1 ms.2)
    | none => .error (.exc "ValueError")
  | .hBool => .ok (.vBool (decide (pyLower val = "true" ∨ pyLower val = "1")))
  | _ => .ok (.vStr val)

/-- The `Request` object as the dispatcher sees it (`parse_qs` is not
re-embedded: the parsed query dict is carried directly). -/
structure Req where
  method : String
  path : String
  headers : List (String × String)
  queryParams : List (String × List String)
  jsonBody : Json

/-- `Request.query(name)`: the first value of the query parameter, `none`
when the key is absent or its list empty. -/
def Req.query (req : Req) (name : String) : Option String :=
  match dget req.queryParams name with
  | some (v :: _) => some v
  | _ => none

/-- One handler/dependency parameter: its name, resolved type hint, and
declared default (`none` = `inspect.Parameter.empty`). -/
structure PyParam where
  name : String
  hint : Hint
  default : Option Value

/-- `Barq._get_depends` (an `Annotated[...]` carrying a `Depends` collapses
to the same constructor here). -/
def getDepends : Hint → Option Nat
  | .hDepends fn => some fn
  | _ => none

/-- The application's callables (handlers and dependency producers),
identified by number: each has a signature and a behavior; `validate` is the
external pydantic `model_validate` collaborator. -/
structure Callables where
  sigs : Nat → List PyParam
  impl : Nat → List (String × Value) → Except Exn Value
  validate : Json → Except Exn Value

/-- The parameter loop of `Barq._resolve`, one iteration per parameter in
declaration order, branching exactly as the source does (`Request` hint,
`Depends`, path parameter, pydantic model, query value, declared default,
else skipped).  `cache` is the memoization dict created by this `_resolve`
call, threaded through the loop; `trace` records every dependency invocation
of the request in order; `dep` is `_resolve_dep` at the current recursion
depth. -/
def resolveListAux (env : Callables)
    (dep : Nat → List (Nat × Value) → List Nat →
      Except Exn (Value × List (Nat × Value) × List Nat))
    (params : List PyParam) (req : Req) (pathParams : List (String × String))
    (cache : List (Nat × Value)) (trace : List Nat) :
    Except Exn (List (String × Value) × List (Nat × Value) × List Nat) :=
  match params with
  | [] => .ok ([], cache, trace)
  | p :: ps =>
    if p.hint = .hRequest then
      (resolveListAux env dep ps req pathParams cache trace).map
        (fun r => ((p.name, Value.vRequest) :: r.1, r.2))
    else
      match getDepends p.hint with
      | some fn =>
        match dep fn cache trace with
        | .error e => .error e
        | .ok vct =>
          (resolveListAux env dep ps req pathParams vct.2.1 vct.2.2).map
            (fun r => ((p.name, vct.1) :: r.1, r.2))
      | none =>
        match dget pathParams p.name with
        | some pv =>
          match coerce pv p.hint with
          | .error e => .error e
          | .ok v =>
            (resolveListAux env dep ps req pathParams cache trace).map
              (fun r => ((p.name, v) :: r.1, r.2))
        | none =>
          if p.hint = .hModel then
            match env.validate req.jsonBody with
            | .error e => .error e
            | .ok v =>
              (resolveListAux env dep ps req pathParams cache trace).map
                (fun r => ((p.name, v) :: r.1, r.2))
          else
            match req.query p.name with
            | some qv =>
              match coerce qv p.hint with
              | .error e => .error e
              | .ok v =>
                (resolveListAux env dep ps req pathParams cache trace).map
                  (fun r => ((p.name, v) :: r.1, r.2))
            | none =>
              match p.default with
              | some d =>
                (resolveListAux env dep ps req pathParams cache trace).map
                  (fun r => ((p.name, d) :: r.1, r.2))
              | none => resolveListAux env dep ps req pathParams cache trace

/-- `Barq._resolve_dep`: return the cached value when present; otherwise
resolve the dependency's own parameters through a nested `_resolve` — which,
as in the source, starts a **fresh** cache — invoke the callable, record the
invocation in the trace, and cache the result.  `fuel` bounds the recursion
depth (Python's `RecursionError` on dependency cycles) and is structural so
the definition computes. -/
def resolveDep (env : Callables) (req : Req) (pathParams : List (String × String)) :
    Nat → Nat → List (Nat × Value) → List Nat →
    Except Exn (Value × List (Nat × Value) × List Nat)
  | 0, fn, cache, trace =>
    match dget cache fn with
    | some v => .ok (v, cache, trace)
    | none => .error (.exc "RecursionError")
  | f + 1, fn, cache, trace =>
    match dget cache fn with
    | some v => .ok (v, cache, trace)
    | none =>
      match resolveListAux env (resolveDep env req pathParams f) (env.sigs fn)
          req pathParams [] trace with
      | .error e => .error e
      | .ok kct =>
        match env.impl fn kct.1 with
        | .error e => .error e
        | .ok v => .ok (v, dset cache fn v, kct.2.2 ++ [fn])

/-- `Barq._resolve` with its cache and trace threaded explicitly. -/
def resolveList (env : Callables) (fuel : Nat) (params : List PyParam) (req : Req)
    (pathParams : List (String × String)) (cache : List (Nat × Value))
    (trace : List Nat) :
    Except Exn (List (String × Value) × List (Nat × Value) × List Nat) :=
  resolveListAux env (resolveDep env req pathParams fuel) params req pathParams
    cache trace

/-- `Barq._resolve` as called per request: fresh cache, returning the kwargs
and the request's dependency-invocation trace. -/
def resolve (env : Callables) (fuel : Nat) (params : List PyParam) (req : Req)
    (pathParams : List (String × String)) :
    Except Exn (List (String × Value) × List Nat) :=
  match resolveList env fuel params req pathParams [] [] with
  | .error e => .error e
  | .ok kct => .ok (kct.1, kct.2.2)

/-! ### app.py — regex Router, dispatch and the fault boundary -/

/-- One piece of the compiled route pattern: an escaped literal chunk or a
`(?P<name>[^/]+)` group. -/
inductive PatPart where
  | lit (s : String)
  | param (name : String)
deriving DecidableEq

/-- One match of `PARAM_RE = \{(\w+)\}` just after an opening brace: a
maximal nonempty word-character run followed by the closing brace. -/
def takeParam (cs : List Char) : Option (List Char × List Char) :=
  let name := cs.takeWhile isWordChar
  if name.isEmpty then none
  else match cs.drop name.length with
    | d :: rest => if d = Char.ofNat 125 then some (name, rest) else none
    | [] => none

/-- The pattern-construction loop of `Router.add`: `PARAM_RE.finditer`
alternates escaped literal chunks with named groups; `acc` holds the pending
literal characters, reversed.  `fuel` only bounds the scan (the path's
length suffices) so the recursion is structural and computes. -/
def scanRoute (fuel : Nat) (cs : List Char) (acc : List Char) :
    List PatPart × List String :=
  match fuel with
  | 0 => (if acc.isEmpty then [] else [.lit (String.mk acc.reverse)], [])
  | f + 1 =>
    match cs with
    | [] => (if acc.isEmpty then [] else [.lit (String.mk acc.reverse)], [])
    | c :: rest =>
      if c = Char.ofNat 123 then
        match takeParam rest with
        | some nr =>
          let tail := scanRoute f nr.2 []
          ((if acc.isEmpty then [] else [PatPart.lit (String.mk acc.reverse)]) ++
            PatPart.param (String.mk nr.1) :: tail.1,
           String.mk nr.1 :: tail.2)
        | none => scanRoute f rest (c :: acc)
      else scanRoute f rest (c :: acc)

/-- `Router.add`'s compilation of one path pattern. -/
def compileRoute (path : String) : List PatPart × List String :=
  scanRoute path.data.length path.data []

/-- `Route` from app.py (the handler as a callable id; the compiled regex as
its parts). -/
structure AppRoute where
  path : String
  method : String
  handler : Nat
  parts : List PatPart
  param_names : List String

/-- `Router.add`: compile the pattern and append the route. -/
def routerAdd (routes : List AppRoute) (path method : String) (handler : Nat) :
    List AppRoute :=
  let pc := compileRoute path
  routes ++ [⟨path, method, handler, pc.1, pc.2⟩]

/-- Backtracking loop for one `[^/]+` group: try a capture of length `k`,
then `k - 1`, … down to 1; `next` matches the rest of the pattern. -/
def tryLens (name : String) (next : List Char → Option (List (String × String)))
    (cs : List Char) : Nat → Option (List (String × String))
  | 0 => none
  | k + 1 =>
    match next (cs.drop (k + 1)) with
    | some groups => some ((name, String.mk (cs.take (k + 1))) :: groups)
    | none => tryLens name next cs k

/-- The compiled pattern matched against the whole path (`^...$`): literal
chunks match exactly, a `(?P<name>[^/]+)` group greedily takes the longest
nonempty run of non-slash characters and backtracks one character at a time,
as Python's `re` does.  Returns the captured groups in match order. -/
def partsMatch : List PatPart → List Char → Option (List (String × String))
  | [], [] => some []
  | [], _ :: _ => none
  | .lit s :: ps, cs =>
    if s.data.isPrefixOf cs then partsMatch ps (cs.drop s.data.length) else none
  | .param name :: ps, cs =>
    tryLens name (partsMatch ps) cs ((cs.takeWhile (fun c => c ≠ '/')).length)

/-- `Router.match`: scan the routes in registration order; the first with a
matching method and pattern wins; the groups dict is rebuilt keyed by the
route's parameter names. -/
def routerMatch (routes : List AppRoute) (path method : String) :
    Option (AppRoute × List (String × String)) :=
  match routes with
  | [] => none
  | r :: rest =>
    if r.method = method then
      match partsMatch r.parts path.data with
      | some groups =>
        some (r, r.param_names.filterMap (fun k => (dget groups k).map (fun v => (k, v))))
      | none => routerMatch rest path method
    else routerMatch rest path method

/-- `Barq._to_response`: responses pass through, a generator becomes an
ndjson stream, JSON-encodable containers/models become JSON responses,
strings text, `None` an empty 204, and anything else falls back to JSON
encoding (`json.dumps` of a `Request` raises `TypeError`). -/
def toResponse : Value → Except Exn Resp2
  | .vResp r => .ok (.plain r)
  | .vStream s => .ok (.stream s)
  | .vGen items => .ok (.stream (StreamingResp.json_stream items 200))
  | .vJson j => .ok (.plain (Resp.json j 200))
  | .vStr s => .ok (.plain (Resp.text s 200))
  | .vNone => .ok (.plain (Resp.empty 204))
  | .vInt n => .ok (.plain (Resp.json (.num n) 200))
  | .vFloat m sc => .ok (.plain (Resp.json (.fnum m sc) 200))
  | .vBool b => .ok (.plain (Resp.json (.bool b) 200))
  | .vRequest => .error (.exc "TypeError")

/-- The closure produced by `Barq._wrap(fn)`: resolve the parameters, call
the handler, convert its result. -/
def wrapHandler (env : Callables) (fuel : Nat) (fn : Nat) (req : Req)
    (pathParams : List (String × String)) : Except Exn Resp2 :=
  match resolve env fuel (env.sigs fn) req pathParams with
  | .error e => .error e
  | .ok kt =>
    match env.impl fn kt.1 with
    | .error e => .error e
    | .ok result => toResponse result

/-- The innermost `dispatch` closure of `Barq._handle`: router miss gives
the 404 envelope, a hit runs the wrapped handler with the extracted path
parameters. -/
def dispatch (env : Callables) (fuel : Nat) (routes : List AppRoute) (req : Req) :
    Except Exn Resp2 :=
  match routerMatch routes req.path req.method with
  | none => .ok (.plain (Resp.json (.obj [("detail", .str "Not Found")]) 404))
  | some rp => wrapHandler env fuel rp.1.handler req rp.2

/-- A middleware: takes the request and the next handler. -/
abbrev MW : Type := Req → (Req → Except Exn Resp2) → Except Exn Resp2

/-- The wrapping loop of `Barq._handle`: `for mw in reversed(middlewares):
handler = wrap(mw, handler)`, so the first-registered middleware ends up
outermost. -/
def buildChain (mws : List MW) (base : Req → Except Exn Resp2) :
    Req → Except Exn Resp2 :=
  mws.reverse.foldl (fun h mw => fun req => mw req h) base

/-- `Barq._handle`: run the middleware-wrapped dispatch and convert each
fault class to a response at the boundary. -/
def handle (env : Callables) (fuel : Nat) (routes : List AppRoute) (mws : List MW)
    (req : Req) : Resp2 :=
  match buildChain mws (dispatch env fuel routes) req with
  | .ok r => r
  | .error (.httpException status detail) =>
    .plain (Resp.json (.obj [("detail", .str detail)]) status)
  | .error (.validationError errs) =>
    .plain (Resp.json (.obj [("detail", .arr errs)]) 422)
  | .error (.exc _) =>
    .plain (Resp.json (.obj [("detail", .str "Internal Server Error")]) 500)

/-! ### server.py — the connection loop -/

/-- `RawRequest` from http.py (the body as a string of bytes). -/
structure RawReq where
  method : String
  path : String
  query_string : String
  headers : List (String × String)
  body : String

/-- `MAX_REQUESTS_PER_CONN` from server.py. -/
def MAX_REQUESTS_PER_CONN : Nat := 1000

/-- `raw.headers.get("connection", "").lower() == "close"` (header names are
lowercased at parse time; the value comparison is case-insensitive). -/
def isCloseReq (raw : RawReq) : Bool :=
  pyLower ((dget raw.headers "connection").getD "") = "close"

/-- The response as written for one request: `Server._handle` sets the
response's `connection` header to `close` or `keep-alive` before
`write_response`. -/
def respondWith (handler : RawReq → Resp) (raw : RawReq) : Resp :=
  let resp := handler raw
  { resp with
    headers := dset resp.headers "connection"
      (if isCloseReq raw then "close" else "keep-alive") }

/-- The request loop of `Server._handle`: `inputs` is this connection's
schedule of parse outcomes (`none` = `ConnectionError` / `TimeoutError` /
`HTTPParseError`, which break the loop; the list ending plays the same
role).  Returns the responses written, in order; the loop runs only while
`requests_handled < MAX_REQUESTS_PER_CONN` and stops after responding to a
`connection: close` request; the socket is closed on every exit path
(`finally`). -/
def connLoop (handler : RawReq → Resp) (inputs : List (Option RawReq))
    (handled : Nat) : List Resp :=
  if MAX_REQUESTS_PER_CONN ≤ handled then []
  else match inputs with
    | [] => []
    | none :: _ => []
    | some raw :: rest =>
      let resp := respondWith handler raw
      if isCloseReq raw then [resp]
      else resp :: connLoop handler rest (handled + 1)

/-! ### Concrete fixtures used by witnesses and counterexamples -/

/-- Fixture: one handler whose single parameter `item_id` is hinted `int`. -/
def envItems : Callables :=
  ⟨fun _ => [⟨"item_id", .hInt, none⟩], fun _ _ => .ok (.vStr "ok"),
   fun _ => .ok .vNone⟩

/-- Fixture: `GET /items/abc`. -/
def reqAbc : Req := ⟨"GET", "/items/abc", [], [], .null⟩

/-- Fixture: callables 1 and 2 each depend on callable 0; every call returns
its own id. -/
def envShared : Callables :=
  ⟨fun fn => if fn = 1 then [⟨"x", .hDepends 0, none⟩]
    else if fn = 2 then [⟨"y", .hDepends 0, none⟩] else [],
   fun fn _ => .ok (.vInt fn), fun _ => .ok .vNone⟩

/-- Fixture: a request with nothing in it. -/
def reqEmpty : Req := ⟨"GET", "/", [], [], .null⟩

/-- Fixture: every callable is dependency-free and returns its own id. -/
def envDepthOne : Callables :=
  ⟨fun _ => [], fun fn _ => .ok (.vInt fn), fun _ => .ok .vNone⟩

/-- Fixture: a parameterless handler that raises
`HTTPException(404, "Item not found")`. -/
def envRaise : Callables :=
  ⟨fun _ => [], fun _ _ => .error (.httpException 404 "Item not found"),
   fun _ => .ok .vNone⟩

/-- Fixture: `GET /boom`. -/
def reqBoom : Req := ⟨"GET", "/boom", [], [], .null⟩

/-- Fixture: a handler returning a constant response. -/
def constHandler : RawReq → Resp := fun _ => Resp.text "ok" 200

/-- Fixture: a request carrying `connection: Close` (mixed case). -/
def rawClose : RawReq := ⟨"GET", "/", "", [("connection", "Close")], ""⟩

/-! ## Theorems -/

theorem dget_dset {K : Type} [DecidableEq K] {A : Type}
    (d : List (K × A)) (k : K) (v : A) : dget (dset d k v) k = some v := by
  induction d with
  | nil => simp [dget, dset]
  | cons hd tl ih =>
    obtain ⟨k', v'⟩ := hd
    by_cases h : k' = k
    · simp [dget, dset, h]
    · simp [dget, dset, h, ih]

/-- If a complete match exists through literal children only, then
`_match_recursive` returns exactly that route and leaves the params dict
untouched: the literal child is attempted first at every level and its
success preempts the parameterized child. -/
theorem matchRec_literal_first (segs : List String) :
    ∀ (node : RadixNode) (method : String) (params : List (String × String))
      (rd : RouteData),
      (literalLookup node segs).bind (fun n => dget n.handlers method) = some rd →
      matchRec node segs method params = (some rd, params) := by
  induction segs with
  | nil =>
    intro node method params rd h
    simp [literalLookup] at h
    simp [matchRec, h]
  | cons seg rest ih =>
    intro node method params rd h
    cases hc : dget node.children seg with
    | none => simp [literalLookup, hc] at h
    | some child =>
      simp [literalLookup, hc] at h
      have hrec := ih child method params rd h
      simp [matchRec, hc, hrec]

/-- C1: if the request path has a complete match through literal children
(with the method registered at the terminal node), `RadixRouter.match`
resolves to that literal route — the parameterized child is consulted only
when the literal subtree fails — and no path parameters are bound. -/
theorem radix_literal_precedence (r : RadixRouter) (path method : String)
    (rd : RouteData)
    (h : (literalLookup r.root (splitPath path)).bind
          (fun n => dget n.handlers method) = some rd) :
    r.match path method = some (rd, []) := by
  have := matchRec_literal_first (splitPath path) r.root method [] rd h
  simp [RadixRouter.match, this]

/-- C1 witness: with a parameterized route `/items/{id}` and a literal route
`/items/special` both registered, `GET /items/special` resolves to the
literal route. -/
theorem radix_literal_precedence_witness :
    ((RadixRouter.empty.add "/items/{id}" "GET" 1 0).add "/items/special" "GET" 2 0).match
      "/items/special" "GET" = some (⟨2, 0, []⟩, []) :=
  radix_literal_precedence
    ((RadixRouter.empty.add "/items/{id}" "GET" 1 0).add "/items/special" "GET" 2 0)
    "/items/special" "GET" ⟨2, 0, []⟩ (by decide)

theorem splitPath_eq_filter (p : String) :
    splitPath p = (pySplit '/' p).filter (fun s => s ≠ "") := by
  by_cases h : p = "/"
  · subst h; decide
  · simp [splitPath, h]

/-- C10: `_split_path` discards every empty segment, so two request paths
whose nonempty `/`-separated segments agree (e.g. paths differing only in
trailing or repeated slashes) produce identical match results, including the
same extracted path-parameter bindings. -/
theorem radix_match_slash_insensitive (r : RadixRouter) (p q method : String)
    (h : (pySplit '/' p).filter (fun s => s ≠ "") =
         (pySplit '/' q).filter (fun s => s ≠ "")) :
    r.match p method = r.match q method := by
  have hp : splitPath p = splitPath q := by
    rw [splitPath_eq_filter, splitPath_eq_filter, h]
  simp [RadixRouter.match, hp]

/-- C10 witness: `/a/b` and `/a//b/` match identically in a concrete router
with a parameterized route, with identical parameter bindings. -/
theorem radix_match_slash_insensitive_witness :
    (RadixRouter.empty.add "/a/{x}" "GET" 1 0).match "/a/b" "GET" =
      (RadixRouter.empty.add "/a/{x}" "GET" 1 0).match "/a//b/" "GET" :=
  radix_match_slash_insensitive (RadixRouter.empty.add "/a/{x}" "GET" 1 0)
    "/a/b" "/a//b/" "GET" (by decide)

theorem findSplit_eq_none (sep : Char) (cs : List Char) :
    findSplit sep cs = none ↔ sep ∉ cs := by
  induction cs with
  | nil => simp [findSplit]
  | cons c rest ih =>
    by_cases h : c = sep
    · subst h; simp [findSplit]
    · have h' : ¬sep = c := fun e => h e.symm
      simp [findSplit, h, Option.map_eq_none', ih, h']

theorem findSplit_append (sep : Char) (a b : List Char) (h : sep ∉ a) :
    findSplit sep (a ++ sep :: b) = some (a, b) := by
  induction a with
  | nil => simp [findSplit]
  | cons c rest ih =>
    have hc : ¬c = sep := fun e => h (by simp [e])
    have hrest : sep ∉ rest := fun hm => h (List.mem_cons_of_mem _ hm)
    simp [findSplit, hc, ih hrest]

theorem findSplit_eq_some (sep : Char) (cs pre post : List Char)
    (h : findSplit sep cs = some (pre, post)) :
    cs = pre ++ sep :: post ∧ sep ∉ pre := by
  induction cs generalizing pre post with
  | nil => simp [findSplit] at h
  | cons c rest ih =>
    by_cases hc : c = sep
    · subst hc
      simp [findSplit] at h
      obtain ⟨h1, h2⟩ := h
      subst h1; subst h2; simp
    · simp only [findSplit, if_neg hc] at h
      cases hf : findSplit sep rest with
      | none => rw [hf] at h; simp at h
      | some pq =>
        obtain ⟨p, q⟩ := pq
        rw [hf] at h
        simp only [Option.map_some', Option.some.injEq, Prod.mk.injEq] at h
        obtain ⟨h1, h2⟩ := h
        obtain ⟨hcs, hnp⟩ := ih p q hf
        subst h1; subst h2
        constructor
        · simp [hcs]
        · intro hm
          rcases List.mem_cons.mp hm with h1 | h1
          · exact hc h1.symm
          · exact hnp h1

theorem append_sep_inj (sep : Char) (a b a' b' : List Char)
    (ha : sep ∉ a) (ha' : sep ∉ a')
    (h : a ++ sep :: b = a' ++ sep :: b') : a = a' ∧ b = b' := by
  induction a generalizing a' with
  | nil =>
    cases a' with
    | nil => simpa using h
    | cons c rest =>
      simp only [List.nil_append, List.cons_append, List.cons.injEq] at h
      exact absurd (by rw [h.1]; exact List.mem_cons_self c rest) ha'
  | cons c rest ih =>
    cases a' with
    | nil =>
      simp only [List.nil_append, List.cons_append, List.cons.injEq] at h
      exact absurd (by rw [← h.1]; exact List.mem_cons_self c rest) ha
    | cons c' rest' =>
      simp only [List.cons_append, List.cons.injEq] at h
      obtain ⟨h1, h2⟩ := h
      have hr := ih rest' (fun hm => ha (List.mem_cons_of_mem _ hm))
        (fun hm => ha' (List.mem_cons_of_mem _ hm)) h2
      exact ⟨by rw [h1, hr.1], hr.2⟩

theorem pySplitMax_zero (sep : Char) (cs : List Char) :
    pySplitMax sep cs 0 = [cs] := rfl

theorem pySplitMax_succ (sep : Char) (cs : List Char) (k : Nat) :
    pySplitMax sep cs (k + 1) =
      match findSplit sep cs with
      | none => [cs]
      | some (pre, post) => pre :: pySplitMax sep post k := rfl

/-- Either the request line has no "space, then later another space"
decomposition and parsing fails, or it has one and parsing succeeds with the
uppercased first part, the part between the first two spaces, and the rest. -/
theorem parseRequestLine_cases (line : String) :
    (parseRequestLine line = .error ("Bad request line: " ++ line) ∧
      ∀ a b c : List Char,
        ¬(line.data = a ++ ' ' :: (b ++ ' ' :: c) ∧ ' ' ∉ a ∧ ' ' ∉ b))
  ∨ (∃ a b c : List Char, line.data = a ++ ' ' :: (b ++ ' ' :: c) ∧ ' ' ∉ a ∧ ' ' ∉ b ∧
      parseRequestLine line = .ok (pyUpper (String.mk a), String.mk b, String.mk c)) := by
  cases h1 : findSplit ' ' line.data with
  | none =>
    left
    have hno : ' ' ∉ line.data := (findSplit_eq_none ' ' line.data).mp h1
    constructor
    · simp [parseRequestLine, pySplitMax_succ, pySplitMax_zero, h1]
    · rintro a b c ⟨hd, -, -⟩
      exact hno (by rw [hd]; exact List.mem_append_right a (List.mem_cons_self ' ' (b ++ ' ' :: c)))
  | some pq =>
    obtain ⟨a, rest⟩ := pq
    obtain ⟨hla, hna⟩ := findSplit_eq_some ' ' line.data a rest h1
    cases h2 : findSplit ' ' rest with
    | none =>
      left
      have hno : ' ' ∉ rest := (findSplit_eq_none ' ' rest).mp h2
      constructor
      · simp [parseRequestLine, pySplitMax_succ, pySplitMax_zero, h1, h2]
      · rintro a' b' c' ⟨hd, hna', -⟩
        rw [hla] at hd
        have heq := append_sep_inj ' ' a rest a' (b' ++ ' ' :: c') hna hna' hd
        exact hno (by rw [heq.2]; exact List.mem_append_right b' (List.mem_cons_self ' ' c'))
    | some pq2 =>
      obtain ⟨b, c⟩ := pq2
      obtain ⟨hlb, hnb⟩ := findSplit_eq_some ' ' rest b c h2
      right
      refine ⟨a, b, c, by rw [hla, hlb], hna, hnb, ?_⟩
      simp [parseRequestLine, pySplitMax_succ, pySplitMax_zero, h1, h2]

/-- C7 (amended): request-line parsing succeeds iff the line contains at
least two space characters — equivalently iff it decomposes around its first
two spaces (the split uses `maxsplit=2`, so lines with more than three
space-delimited fields still parse, the surplus text remaining in the third
part).  On success the method is the uppercased text before the first space
and the target is the text between the first two spaces; the target is split
on its first `?` into path and query string. -/
theorem request_line_parse_rule (line : String) :
    ((parseRequestLine line).toOption.isSome ↔
      ∃ a b c : List Char, line.data = a ++ ' ' :: (b ++ ' ' :: c) ∧ ' ' ∉ a ∧ ' ' ∉ b)
  ∧ (∀ m t v, parseRequestLine line = .ok (m, t, v) →
      ∃ a b c : List Char, line.data = a ++ ' ' :: (b ++ ' ' :: c) ∧ ' ' ∉ a ∧ ' ' ∉ b ∧
        m = pyUpper (String.mk a) ∧ t = String.mk b ∧ v = String.mk c)
  ∧ (∀ a b : List Char, '?' ∉ a →
      splitTarget (String.mk (a ++ '?' :: b)) = (String.mk a, String.mk b))
  ∧ (∀ t : String, '?' ∉ t.data → splitTarget t = (t, "")) := by
  refine ⟨?_, ?_, ?_, ?_⟩
  · rcases parseRequestLine_cases line with ⟨herr, hno⟩ | ⟨a, b, c, hd, hpa, hb, hok⟩
    · rw [herr]
      simp only [Except.toOption, Option.isSome_none, Bool.false_eq_true, false_iff]
      rintro ⟨a, b, c, hd, hna, hnb⟩
      exact hno a b c ⟨hd, hna, hnb⟩
    · rw [hok]
      simp only [Except.toOption, Option.isSome_some, true_iff]
      exact ⟨a, b, c, hd, hpa, hb⟩
  · intro m t v h
    rcases parseRequestLine_cases line with ⟨herr, -⟩ | ⟨a, b, c, hd, hpa, hb, hok⟩
    · rw [herr] at h; exact absurd h (by simp)
    · rw [hok] at h
      injection h with h
      exact ⟨a, b, c, hd, hpa, hb, congrArg Prod.fst h.symm,
        congrArg (fun x => x.2.1) h.symm, congrArg (fun x => x.2.2) h.symm⟩
  · intro a b h
    simp [splitTarget, findSplit_append '?' a b h]
  · intro t h
    simp [splitTarget, (findSplit_eq_none '?' t.data).mpr h]

/-- C7 counterexample: the request line `GET / HTTP/1.1 extra` has four
whitespace-delimited fields, not three, yet parsing succeeds (the split uses
`maxsplit=2`), refuting "parsing succeeds if and only if the line consists
of exactly 3 whitespace-delimited fields". -/
theorem request_line_four_fields_parses :
    (parseRequestLine "GET / HTTP/1.1 extra").toOption.isSome = true ∧
    (specWhitespaceFields "GET / HTTP/1.1 extra").length = 4 := by decide

/-- C7 witness: `get /p HTTP/1.1` parses; the theorem yields the
decomposition with the uppercased method. -/
theorem request_line_parse_rule_witness :
    ∃ a b c : List Char,
      ("get /p HTTP/1.1" : String).data = a ++ ' ' :: (b ++ ' ' :: c) ∧
      ' ' ∉ a ∧ ' ' ∉ b ∧ "GET" = pyUpper (String.mk a) ∧
      "/p" = String.mk b ∧ "HTTP/1.1" = String.mk c :=
  (request_line_parse_rule "get /p HTTP/1.1").2.1 "GET" "/p" "HTTP/1.1" rfl

theorem sockRead_stream (chunks : List (List Nat)) :
    ∀ (buffer : List Nat) (n : Nat), (∀ c ∈ chunks, c ≠ []) →
    (n ≤ buffer.length + (chunks.map List.length).sum →
      ∃ buf' ch', sockRead buffer chunks n =
          some ((buffer ++ chunks.flatten).take n, buf', ch') ∧
        buf' ++ ch'.flatten = (buffer ++ chunks.flatten).drop n)
  ∧ (buffer.length + (chunks.map List.length).sum < n →
      sockRead buffer chunks n = none) := by
  induction chunks with
  | nil =>
    intro buffer n _
    constructor
    · intro hle
      simp only [List.map_nil, List.sum_nil, Nat.add_zero] at hle
      refine ⟨buffer.drop n, [], ?_, by simp⟩
      simp [sockRead, hle]
    · intro hlt
      simp only [List.map_nil, List.sum_nil, Nat.add_zero] at hlt
      simp [sockRead, Nat.not_le.mpr hlt]
  | cons c rest ih =>
    intro buffer n hch
    have hcne : c ≠ [] := hch c (List.mem_cons_self _ _)
    have hrest : ∀ d ∈ rest, d ≠ [] := fun d hd => hch d (List.mem_cons_of_mem _ hd)
    by_cases hle : n ≤ buffer.length
    · constructor
      · intro _
        refine ⟨buffer.drop n, c :: rest, ?_, ?_⟩
        · simp [sockRead, hle, List.take_append_of_le_length hle]
        · simp [List.drop_append_of_le_length hle]
      · intro hlt
        exfalso
        have : buffer.length ≤ buffer.length + (List.map List.length (c :: rest)).sum :=
          Nat.le_add_right _ _
        omega
    · have hstep : sockRead buffer (c :: rest) n = sockRead (buffer ++ c) rest n := by
        simp [sockRead, hle, hcne]
      have hjoin : (buffer ++ c) ++ rest.flatten = buffer ++ (c :: rest).flatten := by
        simp
      have hlen : (buffer ++ c).length + (rest.map List.length).sum =
          buffer.length + (List.map List.length (c :: rest)).sum := by
        simp; omega
      obtain ⟨ihs, ihf⟩ := ih (buffer ++ c) n hrest
      constructor
      · intro hlen2
        obtain ⟨buf', ch', h1, h2⟩ := ihs (by omega)
        exact ⟨buf', ch', by rw [hstep, h1, hjoin], by rw [h2, hjoin]⟩
      · intro hlt
        rw [hstep]
        exact ihf (by omega)

/-- C6: with `content-length: N` in the headers, the parser's body is exactly
the next `N` bytes of the connection's byte stream — independent of how the
`recv` chunks segment it — and `SocketReader.read(n)` returns exactly `n`
bytes, failing only if the peer disconnects before `n` bytes arrive; with no
`content-length` header the body is empty. -/
theorem body_reads_exact_content_length (chunks : List (List Nat)) (buffer : List Nat)
    (n : Nat) (hch : ∀ c ∈ chunks, c ≠ []) :
    (n ≤ buffer.length + (chunks.map List.length).sum →
      ∃ buf' ch', sockRead buffer chunks n =
          some ((buffer ++ chunks.flatten).take n, buf', ch') ∧
        ((buffer ++ chunks.flatten).take n).length = n ∧
        buf' ++ ch'.flatten = (buffer ++ chunks.flatten).drop n)
  ∧ (buffer.length + (chunks.map List.length).sum < n →
      sockRead buffer chunks n = none)
  ∧ (∀ (headers : List (String × String)) (s : String),
      dget headers "content-length" = some s → pyIntParse s = some (Int.ofNat n) →
      readBody headers buffer chunks = sockRead buffer chunks n)
  ∧ (∀ headers : List (String × String), dget headers "content-length" = none →
      readBody headers buffer chunks = some ([], buffer, chunks)) := by
  obtain ⟨hs, hf⟩ := sockRead_stream chunks buffer n hch
  refine ⟨?_, hf, ?_, ?_⟩
  · intro hle
    obtain ⟨buf', ch', h1, h2⟩ := hs hle
    refine ⟨buf', ch', h1, ?_, h2⟩
    rw [List.length_take]
    have : n ≤ (buffer ++ chunks.flatten).length := by
      rw [List.length_append, List.length_flatten]
      simpa using hle
    omega
  · intro headers s hcl hparse
    have hne : s ≠ "" := by
      intro he
      rw [he] at hparse
      simp [pyIntParse] at hparse
    simp [readBody, hcl, hne, hparse]
  · intro headers hcl
    simp [readBody, hcl]

/-- C6 witness: two recv chunks `[1]` and `[2, 3]` deliver a 2-byte body
`[1, 2]` for `content-length: 2`. -/
theorem body_reads_exact_content_length_witness :
    (∃ buf' ch', sockRead [] [[1], [2, 3]] 2 =
        some ((([] : List Nat) ++ [[1], [2, 3]].flatten).take 2, buf', ch') ∧
      ((([] : List Nat) ++ [[1], [2, 3]].flatten).take 2).length = 2 ∧
      buf' ++ ch'.flatten = (([] : List Nat) ++ [[1], [2, 3]].flatten).drop 2) ∧
    readBody [("content-length", "2")] [] [[1], [2, 3]] = sockRead [] [[1], [2, 3]] 2 :=
  ⟨(body_reads_exact_content_length [[1], [2, 3]] [] 2 (by decide)).1 (by decide),
   (body_reads_exact_content_length [[1], [2, 3]] [] 2 (by decide)).2.2.1
     [("content-length", "2")] "2" (by decide) (by decide)⟩

/-- C4: every constructed StreamingResponse does carry
`transfer-encoding: chunked` (the SSE variant additionally its
cache/connection headers), but the connection's write path cannot write a
streaming response at all: the one `write_response` call reads
`response.body`, which `StreamingResponse` lacks, so dispatching any
streaming response raises instead of writing headers once and then each
produced chunk. -/
theorem streaming_headers_but_no_write_path :
    (∀ (it : List String) (st : Nat) (hs : List (String × String)) (mt : String),
      dget (mkStreamingResponse it st hs mt).headers "transfer-encoding" = some "chunked")
  ∧ (∀ (evs : List SseEvent) (st : Nat),
      dget (StreamingResp.sse evs st).headers "cache-control" = some "no-cache" ∧
      dget (StreamingResp.sse evs st).headers "connection" = some "keep-alive")
  ∧ (∀ s : StreamingResp, serverWrite (.stream s) = .error "AttributeError") := by
  refine ⟨?_, ?_, fun s => rfl⟩
  · intro it st hs mt
    simp only [mkStreamingResponse]
    exact dget_dset _ _ _
  · intro evs st
    constructor <;> rfl

/-- C8 counterexample: with the default `workers` argument and an empty task
list, `num_workers = min(0, cpu) = 0`, and `ThreadPoolExecutor(max_workers=0)`
raises `ValueError` — the helper raises instead of yielding zero records,
refuting the claim's `N = 0` case (shown with `os.cpu_count() or 4` = 4). -/
theorem stream_parallel_empty_raises :
    streamParallel [] none 4 [] =
      .error "ValueError: max_workers must be greater than 0" := rfl

/-- C8 (amended): provided the computed worker count is positive — with the
default `workers` argument this means the task list is nonempty, since an
empty list makes the pool construction raise `ValueError` — `stream_parallel`
yields exactly one record per task over any completion order, each tagged
with the task's original submission index; a raising task's record carries
the error and an empty result, a returning task's record carries the result
and no error, and no task's failure removes a sibling's record. -/
theorem stream_parallel_records (tasks : List (Except String Json))
    (workers : Option Nat) (cpu : Nat) (order : List Nat)
    (hperm : order.Perm (List.range tasks.length))
    (hne : tasks ≠ []) (hcpu : 1 ≤ cpu) :
    streamParallel tasks workers cpu order = .ok (streamRecords tasks order) ∧
    (streamRecords tasks order).length = tasks.length ∧
    ∀ i, i < tasks.length →
      ∃ r ∈ streamRecords tasks order, r.index = i ∧
        ((∃ v, tasks[i]? = some (.ok v) ∧ r.result = some v ∧ r.error = none) ∨
         (∃ e, tasks[i]? = some (.error e) ∧ r.result = none ∧ r.error = some e)) := by
  have hmem : ∀ i ∈ order, i < tasks.length := fun i hi =>
    List.mem_range.mp (hperm.mem_iff.mp hi)
  have hlen0 : 1 ≤ tasks.length := by
    cases tasks with
    | nil => exact absurd rfl hne
    | cons a l => simp
  have hmin : 1 ≤ min tasks.length cpu := le_min hlen0 hcpu
  have hnw : ¬numWorkers tasks workers cpu = 0 := by
    cases workers with
    | none => simp only [numWorkers]; omega
    | some w =>
      by_cases hw : w = 0
      · simp only [numWorkers, hw, if_true]; omega
      · simp only [numWorkers, if_neg hw]; exact hw
  refine ⟨by simp only [streamParallel, if_neg hnw], ?_, ?_⟩
  · have hlen : order.length = tasks.length := by
      rw [hperm.length_eq, List.length_range]
    rw [← hlen]
    clear hperm hlen
    induction order with
    | nil => rfl
    | cons j rest ih =>
      have hj : j < tasks.length := hmem j (List.mem_cons_self _ _)
      have hrest : ∀ i ∈ rest, i < tasks.length := fun i hi =>
        hmem i (List.mem_cons_of_mem _ hi)
      obtain ⟨t, ht⟩ : ∃ t, tasks[j]? = some t :=
        ⟨tasks[j], List.getElem?_eq_getElem hj⟩
      simp only [streamRecords, List.filterMap_cons, ht, Option.map_some']
      simpa [streamRecords] using ih hrest
  · intro i hi
    have hio : i ∈ order := hperm.mem_iff.mpr (List.mem_range.mpr hi)
    obtain ⟨t, ht⟩ : ∃ t, tasks[i]? = some t := ⟨tasks[i], List.getElem?_eq_getElem hi⟩
    cases t with
    | ok v =>
      refine ⟨⟨i, some v, none⟩, ?_, rfl, .inl ⟨v, ht, rfl, rfl⟩⟩
      exact List.mem_filterMap.mpr ⟨i, hio, by simp [ht]⟩
    | error e =>
      refine ⟨⟨i, none, some e⟩, ?_, rfl, .inr ⟨e, ht, rfl, rfl⟩⟩
      exact List.mem_filterMap.mpr ⟨i, hio, by simp [ht]⟩

/-- C8 witness: tasks `[A ok, B fails, C ok]` with the default worker count
under completion order `[1, 2, 0]` yield three records, and B's record
carries the error with an empty result. -/
theorem stream_parallel_records_witness :
    streamParallel [.ok (Json.num 1), .error "boom", .ok (Json.num 3)] none 4 [1, 2, 0] =
      .ok (streamRecords [.ok (Json.num 1), .error "boom", .ok (Json.num 3)] [1, 2, 0]) ∧
    (streamRecords [.ok (Json.num 1), .error "boom", .ok (Json.num 3)] [1, 2, 0]).length = 3 ∧
    ∃ r ∈ streamRecords [.ok (Json.num 1), .error "boom", .ok (Json.num 3)] [1, 2, 0],
      r.index = 1 ∧
        ((∃ v, [Except.ok (Json.num 1), .error "boom", .ok (Json.num 3)][1]? = some (.ok v) ∧
            r.result = some v ∧ r.error = none) ∨
         (∃ e, [Except.ok (Json.num 1), .error "boom", .ok (Json.num 3)][1]? = some (.error e) ∧
            r.result = none ∧ r.error = some e)) :=
  ⟨(stream_parallel_records [.ok (Json.num 1), .error "boom", .ok (Json.num 3)]
      none 4 [1, 2, 0] (by decide) (List.cons_ne_nil _ _) (by decide)).1,
   (stream_parallel_records [.ok (Json.num 1), .error "boom", .ok (Json.num 3)]
      none 4 [1, 2, 0] (by decide) (List.cons_ne_nil _ _) (by decide)).2.1,
   (stream_parallel_records [.ok (Json.num 1), .error "boom", .ok (Json.num 3)]
      none 4 [1, 2, 0] (by decide) (List.cons_ne_nil _ _) (by decide)).2.2 1 (by decide)⟩

theorem takeParam_length (cs : List Char) (nr : List Char × List Char)
    (h : takeParam cs = some nr) : nr.2.length < cs.length := by
  unfold takeParam at h
  by_cases hn : (cs.takeWhile isWordChar).isEmpty
  · simp [hn] at h
  · simp only [hn, if_false] at h
    cases hd : cs.drop (cs.takeWhile isWordChar).length with
    | nil => rw [hd] at h; simp at h
    | cons d rest =>
      rw [hd] at h
      by_cases hb : d = Char.ofNat 125
      · simp only [hb, if_true] at h
        have hlen : rest.length + 1 ≤ cs.length := by
          have := congrArg List.length hd
          simp only [List.length_drop, List.length_cons] at this
          omega
        cases h
        simpa using hlen
      · simp [hb] at h

/-! ### Dependency memoization (C2) -/

theorem exceptMap_ok {E A B : Type} (f : A → B) (x : Except E A) (b : B)
    (h : x.map f = .ok b) : ∃ a, x = .ok a ∧ f a = b := by
  cases x with
  | error e => simp [Except.map] at h
  | ok a =>
    simp only [Except.map, Except.ok.injEq] at h
    exact ⟨a, rfl, h⟩

theorem dget_dset_ne {K : Type} [DecidableEq K] {A : Type}
    (d : List (K × A)) (k k' : K) (v : A) (hne : k' ≠ k) :
    dget (dset d k v) k' = dget d k' := by
  have hne' : ¬k = k' := fun h => hne h.symm
  induction d with
  | nil => simp [dget, dset, hne']
  | cons hd tl ih =>
    obtain ⟨k0, v0⟩ := hd
    by_cases h : k0 = k
    · subst h
      simp [dget, dset, hne']
    · simp [dget, dset, h, ih]

/-- A parameter list that declares no dependencies resolves without touching
the cache or the invocation trace. -/
theorem resolveListAux_depFree (env : Callables)
    (dep : Nat → List (Nat × Value) → List Nat →
      Except Exn (Value × List (Nat × Value) × List Nat))
    (req : Req) (pp : List (String × String)) (params : List PyParam)
    (hdf : ∀ q ∈ params, getDepends q.hint = none) :
    ∀ cache trace res,
      resolveListAux env dep params req pp cache trace = .ok res →
      res.2.1 = cache ∧ res.2.2 = trace := by
  induction params with
  | nil =>
    intro cache trace res h
    simp only [resolveListAux, Except.ok.injEq] at h
    rw [← h]
    exact ⟨rfl, rfl⟩
  | cons p ps ih =>
    intro cache trace res h
    have hp : getDepends p.hint = none := hdf p (List.mem_cons_self _ _)
    have hps : ∀ q ∈ ps, getDepends q.hint = none :=
      fun q hq => hdf q (List.mem_cons_of_mem _ hq)
    simp only [resolveListAux, hp] at h
    split at h
    · obtain ⟨r, hr, hfr⟩ := exceptMap_ok _ _ _ h
      obtain ⟨h1, h2⟩ := ih hps _ _ _ hr
      rw [← hfr]
      exact ⟨h1, h2⟩
    · split at h
      · split at h
        · simp at h
        · obtain ⟨r, hr, hfr⟩ := exceptMap_ok _ _ _ h
          obtain ⟨h1, h2⟩ := ih hps _ _ _ hr
          rw [← hfr]
          exact ⟨h1, h2⟩
      · split at h
        · split at h
          · simp at h
          · obtain ⟨r, hr, hfr⟩ := exceptMap_ok _ _ _ h
            obtain ⟨h1, h2⟩ := ih hps _ _ _ hr
            rw [← hfr]
            exact ⟨h1, h2⟩
        · split at h
          · split at h
            · simp at h
            · obtain ⟨r, hr, hfr⟩ := exceptMap_ok _ _ _ h
              obtain ⟨h1, h2⟩ := ih hps _ _ _ hr
              rw [← hfr]
              exact ⟨h1, h2⟩
          · split at h
            · obtain ⟨r, hr, hfr⟩ := exceptMap_ok _ _ _ h
              obtain ⟨h1, h2⟩ := ih hps _ _ _ hr
              rw [← hfr]
              exact ⟨h1, h2⟩
            · exact ih hps _ _ _ h

/-- Memoization invariant of one `_resolve` pass whose dependencies are
dependency-free: the cache keys are exactly the traced invocations, and no
callable is invoked twice. -/
theorem resolveListAux_memo (env : Callables) (req : Req)
    (pp : List (String × String)) (fuel : Nat) (params : List PyParam)
    (hdepth : ∀ p ∈ params, ∀ fn, getDepends p.hint = some fn →
        ∀ q ∈ env.sigs fn, getDepends q.hint = none) :
    ∀ cache trace res,
      (∀ fn, (dget cache fn).isSome ↔ fn ∈ trace) → trace.Nodup →
      resolveListAux env (resolveDep env req pp fuel) params req pp cache trace =
        .ok res →
      res.2.2.Nodup ∧ (∀ fn, (dget res.2.1 fn).isSome ↔ fn ∈ res.2.2) := by
  induction params with
  | nil =>
    intro cache trace res hinv hnd h
    simp only [resolveListAux, Except.ok.injEq] at h
    rw [← h]
    exact ⟨hnd, hinv⟩
  | cons p ps ih =>
    intro cache trace res hinv hnd h
    have hdp : ∀ fn, getDepends p.hint = some fn →
        ∀ q ∈ env.sigs fn, getDepends q.hint = none :=
      hdepth p (List.mem_cons_self _ _)
    have hdps : ∀ p' ∈ ps, ∀ fn, getDepends p'.hint = some fn →
        ∀ q ∈ env.sigs fn, getDepends q.hint = none :=
      fun p' hp' => hdepth p' (List.mem_cons_of_mem _ hp')
    cases hdep : getDepends p.hint with
    | some fn =>
      have hnotreq : ¬p.hint = Hint.hRequest := by
        intro e
        rw [e] at hdep
        simp [getDepends] at hdep
      simp only [resolveListAux, hdep] at h
      rw [if_neg hnotreq] at h
      split at h
      · simp at h
      · rename_i vct hd
        obtain ⟨r, hr, hfr⟩ := exceptMap_ok _ _ _ h
        have hstep : vct.2.2.Nodup ∧
            (∀ g, (dget vct.2.1 g).isSome ↔ g ∈ vct.2.2) := by
          cases hc : dget cache fn with
          | some v =>
            have hhit : resolveDep env req pp fuel fn cache trace =
                .ok (v, cache, trace) := by
              cases fuel <;> simp [resolveDep, hc]
            rw [hhit] at hd
            simp only [Except.ok.injEq] at hd
            rw [← hd]
            exact ⟨hnd, hinv⟩
          | none =>
            cases fuel with
            | zero => simp [resolveDep, hc] at hd
            | succ f =>
              simp only [resolveDep, hc] at hd
              split at hd
              · simp at hd
              · rename_i kct hk
                split at hd
                · simp at hd
                · rename_i v hv
                  simp only [Except.ok.injEq] at hd
                  have hfree := resolveListAux_depFree env
                    (resolveDep env req pp f) req pp (env.sigs fn)
                    (hdp fn hdep) [] trace kct hk
                  have hfn_not : fn ∉ trace := by
                    intro hmem
                    have := (hinv fn).mpr hmem
                    rw [hc] at this
                    simp at this
                  rw [← hd]
                  refine ⟨?_, ?_⟩
                  · simp only [hfree.2]
                    exact List.Nodup.append hnd (List.nodup_singleton fn)
                      (fun a ha hb => hfn_not (by rwa [List.mem_singleton.mp hb] at ha))
                  · intro g
                    simp only [hfree.2, List.mem_append, List.mem_singleton]
                    by_cases hg : g = fn
                    · subst hg
                      simp [dget_dset]
                    · rw [dget_dset_ne cache fn g v hg]
                      rw [hinv g]
                      simp [hg]
        obtain ⟨h1, h2⟩ := ih hdps vct.2.1 vct.2.2 r hstep.2 hstep.1 hr
        rw [← hfr]
        exact ⟨h1, h2⟩
    | none =>
      simp only [resolveListAux, hdep] at h
      split at h
      · obtain ⟨r, hr, hfr⟩ := exceptMap_ok _ _ _ h
        obtain ⟨h1, h2⟩ := ih hdps _ _ _ hinv hnd hr
        rw [← hfr]
        exact ⟨h1, h2⟩
      · split at h
        · split at h
          · simp at h
          · obtain ⟨r, hr, hfr⟩ := exceptMap_ok _ _ _ h
            obtain ⟨h1, h2⟩ := ih hdps _ _ _ hinv hnd hr
            rw [← hfr]
            exact ⟨h1, h2⟩
        · split at h
          · split at h
            · simp at h
            · obtain ⟨r, hr, hfr⟩ := exceptMap_ok _ _ _ h
              obtain ⟨h1, h2⟩ := ih hdps _ _ _ hinv hnd hr
              rw [← hfr]
              exact ⟨h1, h2⟩
          · split at h
            · split at h
              · simp at h
              · obtain ⟨r, hr, hfr⟩ := exceptMap_ok _ _ _ h
                obtain ⟨h1, h2⟩ := ih hdps _ _ _ hinv hnd hr
                rw [← hfr]
                exact ⟨h1, h2⟩
            · split at h
              · obtain ⟨r, hr, hfr⟩ := exceptMap_ok _ _ _ h
                obtain ⟨h1, h2⟩ := ih hdps _ _ _ hinv hnd hr
                rw [← hfr]
                exact ⟨h1, h2⟩
              · exact ih hdps _ _ _ hinv hnd h

/-- C2 counterexample: a handler takes `a: Depends(d1), b: Depends(d2)` and
both `d1` (id 1) and `d2` (id 2) depend on `f` (id 0); resolving the
handler's arguments invokes `f` twice — the invocation trace is
`[0, 1, 0, 2]` — because `_resolve_dep` resolves a dependency's own
parameters through a nested `_resolve` call that creates a fresh cache, so
memoization does not span resolution levels. -/
theorem transitive_dependency_invoked_twice :
    resolve envShared 10 [⟨"a", .hDepends 1, none⟩, ⟨"b", .hDepends 2, none⟩]
        reqEmpty [] = .ok ([("a", .vInt 1), ("b", .vInt 2)], [0, 1, 0, 2]) ∧
    ([0, 1, 0, 2] : List Nat).count 0 = 2 :=
  ⟨rfl, rfl⟩

/-- C2 (amended): memoization is scoped to a single `_resolve` pass, not to
the whole request: when the dependencies referenced by a callable's
parameters declare no dependencies of their own, each is invoked at most
once however many parameters reference it (a callable reached transitively
through two different parent dependencies is instead invoked once per
parent, as the counterexample shows). -/
theorem dependency_memoized_per_pass (env : Callables) (fuel : Nat)
    (params : List PyParam) (req : Req) (pp : List (String × String))
    (hdepth : ∀ p ∈ params, ∀ fn, getDepends p.hint = some fn →
        ∀ q ∈ env.sigs fn, getDepends q.hint = none)
    (kwargs : List (String × Value)) (trace : List Nat)
    (h : resolve env fuel params req pp = .ok (kwargs, trace)) :
    trace.Nodup ∧ ∀ fn, trace.count fn ≤ 1 := by
  have hres : ∃ kct, resolveListAux env (resolveDep env req pp fuel) params req pp
      [] [] = .ok kct ∧ kct.2.2 = trace := by
    unfold resolve resolveList at h
    cases hx : resolveListAux env (resolveDep env req pp fuel) params req pp [] [] with
    | error e => rw [hx] at h; simp at h
    | ok kct =>
      rw [hx] at h
      simp only [Except.ok.injEq] at h
      exact ⟨kct, rfl, congrArg Prod.snd h⟩
  obtain ⟨kct, hk, ht⟩ := hres
  have := resolveListAux_memo env req pp fuel params hdepth [] [] kct
    (by intro fn; simp [dget]) List.nodup_nil hk
  rw [ht] at this
  exact ⟨this.1, fun fn => List.nodup_iff_count_le_one.mp this.1 fn⟩

/-- C2 witness: with `a: Depends(f), b: Depends(f)` and `f` (id 0)
dependency-free, the invocation trace of one resolution pass is duplicate
free. -/
theorem dependency_memoized_per_pass_witness :
    ([0] : List Nat).Nodup ∧ ∀ fn, ([0] : List Nat).count fn ≤ 1 :=
  dependency_memoized_per_pass envDepthOne 10
    [⟨"a", .hDepends 0, none⟩, ⟨"b", .hDepends 0, none⟩] reqEmpty []
    (fun _ _ _ _ q hq => absurd hq (List.not_mem_nil q))
    [("a", .vInt 0), ("b", .vInt 0)] [0] rfl

/-! ### The dispatcher fault boundary (C3, C9) -/

/-- C3: every fault raised below the dispatcher boundary — in middleware,
routing, argument resolution, or the handler — is converted to a response by
`Barq._handle` and never propagates out (the conversion is total): an
`HTTPException(s, d)` becomes status `s` with JSON body `{"detail": d}`, a
`ValidationError` becomes 422 with the structured error list, any other
exception becomes 500 with the generic non-leaking detail, and a normal
response passes through unchanged. -/
theorem dispatcher_fault_boundary (env : Callables) (fuel : Nat)
    (routes : List AppRoute) (mws : List MW) (req : Req) :
    (∀ r, buildChain mws (dispatch env fuel routes) req = .ok r →
        handle env fuel routes mws req = r)
  ∧ (∀ s d, buildChain mws (dispatch env fuel routes) req =
        .error (.httpException s d) →
      handle env fuel routes mws req =
        .plain (Resp.json (.obj [("detail", .str d)]) s))
  ∧ (∀ errs, buildChain mws (dispatch env fuel routes) req =
        .error (.validationError errs) →
      handle env fuel routes mws req =
        .plain (Resp.json (.obj [("detail", .arr errs)]) 422))
  ∧ (∀ m, buildChain mws (dispatch env fuel routes) req = .error (.exc m) →
      handle env fuel routes mws req =
        .plain (Resp.json (.obj [("detail", .str "Internal Server Error")]) 500)) := by
  refine ⟨?_, ?_, ?_, ?_⟩
  · intro r h; simp [handle, h]
  · intro s d h; simp [handle, h]
  · intro errs h; simp [handle, h]
  · intro m h; simp [handle, h]

/-- C3 witness: a handler raising `HTTPException(404, "Item not found")`
produces the matching JSON envelope with status 404. -/
theorem dispatcher_fault_boundary_witness :
    handle envRaise 10 (routerAdd [] "/boom" "GET" 0) [] reqBoom =
      .plain (Resp.json (.obj [("detail", .str "Item not found")]) 404) :=
  (dispatcher_fault_boundary envRaise 10 (routerAdd [] "/boom" "GET" 0) []
    reqBoom).2.1 404 "Item not found" rfl

/-- C9: a path or query value declared `int` or `float` that does not parse
makes `_coerce` raise `ValueError`, which only the generic handler catches:
the response is the 500 envelope with the non-leaking detail (not 400, 404,
or 422); end to end, `GET /items/abc` against route `/items/{item_id}` with
`item_id: int` returns exactly that 500 envelope. -/
theorem coerce_failure_maps_to_500 :
    (∀ v : String, pyIntParse v = none → coerce v .hInt = .error (.exc "ValueError"))
  ∧ (∀ v : String, pyFloatParse v = none →
      coerce v .hFloat = .error (.exc "ValueError"))
  ∧ handle envItems 10 (routerAdd [] "/items/\x7bitem_id\x7d" "GET" 0) [] reqAbc =
      .plain (Resp.json (.obj [("detail", .str "Internal Server Error")]) 500) := by
  refine ⟨?_, ?_, rfl⟩
  · intro v h; simp [coerce, h]
  · intro v h; simp [coerce, h]

/-- C9 witness: `int("abc")` fails, so the coercion raises the modelled
`ValueError`. -/
theorem coerce_failure_maps_to_500_witness :
    coerce "abc" .hInt = .error (.exc "ValueError") :=
  coerce_failure_maps_to_500.1 "abc" rfl

/-! ### The connection loop (C5) -/

/-- C5: the connection loop serves at most `MAX_REQUESTS_PER_CONN` requests;
after answering a request whose `connection` header equals `close`
case-insensitively the loop terminates (later requests on the schedule are
never served), and after answering any other parsed request it continues
with the next one. -/
theorem conn_loop_keepalive (handler : RawReq → Resp) :
    (∀ inputs handled, (connLoop handler inputs handled).length ≤
        MAX_REQUESTS_PER_CONN - handled)
  ∧ (∀ raw rest handled, handled < MAX_REQUESTS_PER_CONN → isCloseReq raw = true →
      connLoop handler (some raw :: rest) handled = [respondWith handler raw])
  ∧ (∀ raw rest handled, handled < MAX_REQUESTS_PER_CONN → isCloseReq raw = false →
      connLoop handler (some raw :: rest) handled =
        respondWith handler raw :: connLoop handler rest (handled + 1)) := by
  refine ⟨?_, ?_, ?_⟩
  · intro inputs
    induction inputs with
    | nil =>
      intro handled
      by_cases hc : MAX_REQUESTS_PER_CONN ≤ handled <;> simp [connLoop, hc]
    | cons x rest ih =>
      intro handled
      cases x with
      | none =>
        by_cases hc : MAX_REQUESTS_PER_CONN ≤ handled <;> simp [connLoop, hc]
      | some raw =>
        by_cases hc : MAX_REQUESTS_PER_CONN ≤ handled
        · simp [connLoop, hc]
        · cases hcl : isCloseReq raw with
          | false =>
            simp [connLoop, hc, hcl]
            have := ih (handled + 1)
            omega
          | true =>
            simp [connLoop, hc, hcl]
            omega
  · intro raw rest handled hlt hcl
    simp [connLoop, Nat.not_le.mpr hlt, hcl]
  · intro raw rest handled hlt hcl
    simp [connLoop, Nat.not_le.mpr hlt, hcl]

/-- C5 witness: a request carrying `connection: Close` (mixed case) is
answered and the loop stops, serving nothing after it. -/
theorem conn_loop_keepalive_witness :
    connLoop constHandler [some rawClose, some rawClose] 0 =
      [respondWith constHandler rawClose] :=
  (conn_loop_keepalive constHandler).2.1 rawClose [some rawClose] 0
    (by decide) (by decide)

end Barq

